import Mathlib

/-!
# Verification of the RAG core of `backend/rag.py`

A shallow embedding of the retrieval-augmented-generation pipeline:
the whitespace chunker `_split_text_into_chunks`, cosine similarity
`_cosine_similarity`, the index store `build_or_load_index`, retrieval
`_retrieve_relevant_chunks`, and the answer composer `answer_question`.

Python floats are modelled as real numbers (exact arithmetic); `math.sqrt`
is `Real.sqrt`.  External effects (the embedding and chat providers, the
filesystem, the module-level cache) are made explicit: providers are
function parameters returning `Except`, and the interpreter state touched
by `rag.py` (knowledge file, index file, module cache) is threaded as a
`RagState` value.
-/

namespace Rag

/-- Character-level worker for `pySplit`: accumulate non-whitespace runs,
flush the (reversed) accumulator at each whitespace character, drop empty
tokens. -/
def pySplitAux : List Char → List Char → List String
  | [], acc => if acc = [] then [] else [String.mk acc.reverse]
  | c :: cs, acc =>
    if c.isWhitespace then
      if acc = [] then pySplitAux cs []
      else String.mk acc.reverse :: pySplitAux cs []
    else pySplitAux cs (c :: acc)

/-- Models Python `text.split()` (line 46 of `rag.py`): split on whitespace
runs, producing no empty tokens. -/
def pySplit (text : String) : List String :=
  pySplitAux text.toList []

/-- Models Python `str.strip()`: drop leading and trailing whitespace. -/
def pyStrip (s : String) : String :=
  String.mk (((s.toList.dropWhile Char.isWhitespace).reverse.dropWhile
    Char.isWhitespace).reverse)

/-- Models Python `" ".join(ws)`. -/
def joinSep : List String → String
  | [] => ""
  | [w] => w
  | w :: ws => w ++ " " ++ joinSep ws

/-- Models Python `" ".join(ws).strip()` from lines 55 and 73 of `rag.py`. -/
def joinWords (ws : List String) : String :=
  pyStrip (joinSep ws)

/-- Models `sum(len(w) + 1 for w in ws)` from lines 61 and 64 of `rag.py`. -/
def sumLen (ws : List String) : ℕ :=
  (ws.map (fun w => w.length + 1)).sum

/-- Models the `while current and sum(len(w) + 1 for w in overlap_words) < overlap`
loop of lines 60-62 of `rag.py`.  The first argument list is the closed
buffer reversed (`current.pop()` pops from the end), `acc` is `overlap_words`
(each popped word is inserted at the front). -/
def overlapTake (overlap : ℕ) : List String → List String → List String
  | [], acc => acc
  | w :: rws, acc =>
    if sumLen acc < overlap then overlapTake overlap rws (w :: acc) else acc

/-- The buffer seeded for the next chunk when a chunk closes with buffer
`current` (lines 59-63 of `rag.py`). -/
def overlapSeed (current : List String) (overlap : ℕ) : List String :=
  overlapTake overlap current.reverse []

/-- The word-level body of `_split_text_into_chunks` (lines 46-75 of
`rag.py`): chunks are kept as word lists (the source joins them with
single spaces on emission, see `split_text_into_chunks`).  Arguments after
the word list: `current`, `current_len`, and the accumulated `chunks`. -/
def splitWordsLoop (maxChars overlap : ℕ) :
    List String → List String → ℕ → List (List String) → List (List String)
  | [], current, _, chunks =>
      if current = [] then chunks else chunks ++ [current]
  | w :: ws, current, currentLen, chunks =>
      let addLen := w.length + (if current = [] then 0 else 1)
      if currentLen + addLen > maxChars ∧ current ≠ [] then
        let chunks' := chunks ++ [current]
        let current' := if 0 < overlap then overlapSeed current overlap else []
        let currentLen' := if 0 < overlap then sumLen current' else 0
        splitWordsLoop maxChars overlap ws (current' ++ [w]) (currentLen' + addLen) chunks'
      else
        splitWordsLoop maxChars overlap ws (current ++ [w]) (currentLen + addLen) chunks

/-- The chunks of `_split_text_into_chunks(text, max_chars, overlap)`, as
word lists. -/
def splitWords (text : String) (maxChars overlap : ℕ) : List (List String) :=
  splitWordsLoop maxChars overlap (pySplit text) [] 0 []

/-- Models `_split_text_into_chunks` (lines 41-75 of `rag.py`). -/
def split_text_into_chunks (text : String) (maxChars overlap : ℕ) :
    List String :=
  (splitWords text maxChars overlap).map joinWords

/-- Models the `Chunk` dataclass (lines 28-32 of `rag.py`).  `id` is a
Python `int`, hence `ℤ`; the embedding is a float vector, modelled over ℝ. -/
structure Chunk where
  id : ℤ
  text : String
  embedding : List ℝ

/-- `sum(x * y for x, y in zip(a, b))` (line 87 of `rag.py`). -/
def dotSum (a b : List ℝ) : ℝ :=
  ((a.zip b).map (fun p => p.1 * p.2)).sum

/-- `math.sqrt(sum(x * x for x in a))` (lines 88-89 of `rag.py`). -/
noncomputable def vecNorm (a : List ℝ) : ℝ :=
  Real.sqrt ((a.map (fun x => x * x)).sum)

/-- Models `_cosine_similarity` (lines 86-92 of `rag.py`).  The function is
total: the zero-norm case is an ordinary return of `0.0`, not an
exception. -/
noncomputable def cosine_similarity (a b : List ℝ) : ℝ :=
  if vecNorm a = 0 ∨ vecNorm b = 0 then 0
  else dotSum a b / (vecNorm a * vecNorm b)

/-! ## Index persistence (lines 104-110 and 122-126 of `rag.py`)

The persisted `index.json` document is modelled as a JSON value tree.
Python distinguishes ints from floats in JSON, so the tree does too. -/

/-- A JSON value, with floats modelled as reals. -/
inductive Json where
  | int (n : ℤ)
  | num (x : ℝ)
  | str (s : String)
  | arr (elems : List Json)
  | obj (fields : List (String × Json))

/-- One record of the `serializable` list of lines 123-125 of `rag.py`:
`{"id": c.id, "text": c.text, "embedding": c.embedding}`. -/
def serializeChunk (c : Chunk) : Json :=
  .obj [("id", .int c.id), ("text", .str c.text),
        ("embedding", .arr (c.embedding.map Json.num))]

/-- The serialized index document written to `INDEX_PATH` (line 126). -/
def serializeIndex (index : List Chunk) : Json :=
  .arr (index.map serializeChunk)

/-- JSON object field access, models Python `item[key]` on a parsed dict. -/
def getField (fields : List (String × Json)) (key : String) : Option Json :=
  match fields with
  | [] => none
  | (k, v) :: rest => if k = key then some v else getField rest key

/-- Reads a JSON array as a float vector (the `embedding` field). -/
def floatsOf : List Json → Option (List ℝ)
  | [] => some []
  | .num x :: rest => (floatsOf rest).map (fun l => x :: l)
  | _ => none

/-- Models `Chunk(id=item["id"], text=item["text"], embedding=item["embedding"])`
(line 107 of `rag.py`); `none` models the exception Python raises on a
malformed record. -/
def deserializeChunk (j : Json) : Option Chunk :=
  match j with
  | .obj fields =>
    match getField fields "id", getField fields "text", getField fields "embedding" with
    | some (.int i), some (.str t), some (.arr es) =>
      (floatsOf es).map (fun emb => ⟨i, t, emb⟩)
    | _, _, _ => none
  | _ => none

/-- The list comprehension of lines 106-109 of `rag.py`: one chunk per
record, the first malformed record aborting the whole load. -/
def deserializeItems : List Json → Option (List Chunk)
  | [] => some []
  | j :: js =>
    match deserializeChunk j with
    | none => none
    | some c => (deserializeItems js).map (fun cs => c :: cs)

/-- Models lines 105-109 of `rag.py`: parse the persisted document into the
chunk list. -/
def deserializeIndex (j : Json) : Option (List Chunk) :=
  match j with
  | .arr items => deserializeItems items
  | _ => none

/-! ## The index store (lines 25 and 95-130 of `rag.py`)

The pieces of interpreter state `build_or_load_index` touches are made
explicit: the knowledge file, the persisted index file, and the
module-level `_index_cache`.  The embedding provider (`_embed_text`,
lines 78-83) is a function parameter returning `Except`: `.error` models
the provider call raising. -/

/-- The state `rag.py` reads and writes: `KNOWLEDGE_PATH` (`none` when the
file is absent), `INDEX_PATH` (`none` when absent), and `_index_cache`
(`none` models Python `None`). -/
structure RagState where
  knowledgeFile : Option String
  indexFile : Option Json
  indexCache : Option (List Chunk)

/-- The exceptions `build_or_load_index` can propagate: `fileNotFound`
models `FileNotFoundError` (the spec's `NotFoundError`, line 37),
`malformedIndex` the parse errors of line 105-107, and `provider` an
embedding-provider failure (the spec's `ProviderError`). -/
inductive RagError (ε : Type) where
  | fileNotFound
  | malformedIndex
  | provider (e : ε)

/-- The embedding loop of lines 116-120 of `rag.py`: one provider call per
chunk, ids assigned as the 0-based position; the first failure aborts the
whole loop. -/
def embedChunks {ε : Type} (embed : String → Except ε (List ℝ)) :
    List String → ℕ → Except ε (List Chunk)
  | [], _ => .ok []
  | t :: ts, i =>
    match embed t with
    | .error e => .error e
    | .ok emb =>
      match embedChunks embed ts (i + 1) with
      | .error e => .error e
      | .ok rest => .ok (⟨(i : ℤ), t, emb⟩ :: rest)

/-- The build-from-scratch path of `build_or_load_index` (lines 112-130):
load the knowledge text (raising `fileNotFound` when absent), chunk it
with the fixed defaults `max_chars=800, overlap=100`, embed every chunk,
and only then write the index file and populate the cache.  On any raise
the state is returned unchanged, as an uncaught Python exception leaves
the module state at the point of the raise. -/
def buildFresh {ε : Type} (embed : String → Except ε (List ℝ)) (s : RagState) :
    Except (RagError ε) (List Chunk) × RagState :=
  match s.knowledgeFile with
  | none => (.error .fileNotFound, s)
  | some text =>
    match embedChunks embed (split_text_into_chunks text 800 100) 0 with
    | .error e => (.error (.provider e), s)
    | .ok index =>
      (.ok index,
       { s with indexFile := some (serializeIndex index), indexCache := some index })

/-- Models `build_or_load_index` (lines 95-130 of `rag.py`): serve the
module cache, else load and cache the persisted file, else build from
scratch; `force_rebuild` skips both fast paths. -/
def build_or_load_index {ε : Type} (embed : String → Except ε (List ℝ))
    (force_rebuild : Bool) (s : RagState) :
    Except (RagError ε) (List Chunk) × RagState :=
  match s.indexCache, force_rebuild with
  | some cached, false => (.ok cached, s)
  | _, _ =>
    match s.indexFile, force_rebuild with
    | some raw, false =>
      match deserializeIndex raw with
      | some loaded => (.ok loaded, { s with indexCache := some loaded })
      | none => (.error .malformedIndex, s)
    | _, _ => buildFresh embed s

/-! ## Retrieval (lines 133-143 of `rag.py`) -/

/-- The Boolean comparison realizing `scored.sort(key=lambda x: x[1],
reverse=True)` (line 141): a stable sort placing higher-scored pairs
first; pairs with equal scores keep their original relative order. -/
noncomputable def scoreGE (x y : Chunk × ℝ) : Bool :=
  decide (y.2 ≤ x.2)

/-- Models `_retrieve_relevant_chunks` (lines 133-143 of `rag.py`), with
the two effects already performed: `index` is the result of
`build_or_load_index()` and `query_emb` that of `_embed_text(question)`.
Scores every chunk by cosine similarity against the query embedding,
stably sorts by descending score, and returns the first `k` chunks. -/
noncomputable def retrieve_relevant_chunks (index : List Chunk)
    (query_emb : List ℝ) (k : ℕ) : List Chunk :=
  let scored := index.map (fun c => (c, cosine_similarity query_emb c.embedding))
  let sorted := scored.mergeSort scoreGE
  (sorted.take k).map Prod.fst

/-! ## The answer composer (lines 146-208 of `rag.py`) -/

/-- Token-usage counters as reported by the chat provider; each field
models `getattr(completion.usage, ..., None)` (lines 192-194). -/
structure Usage where
  input_tokens : Option ℤ
  output_tokens : Option ℤ
  total_tokens : Option ℤ

/-- The chat-provider response: the contents of `completion.choices`
(one string per choice) and the optional `completion.usage`. -/
structure ChatCompletion where
  choices : List String
  usage : Option Usage

/-- The dictionary returned by `answer_question` (lines 201-207 of
`rag.py`); `usage = none` models the empty dict of line 189. -/
structure AnswerResult where
  answer : String
  retrieved_chunks : List String
  source_files : List String
  model_name : String
  temperature : ℝ
  usage : Option Usage

/-- `CHAT_MODEL` (line 15 of `rag.py`). -/
def CHAT_MODEL : String := "gpt-4o-mini"

/-- The system prompt of lines 162-168 of `rag.py`. -/
def systemPrompt : String :=
  "Eres un asistente virtual de trámites consulares del Ministerio de Relaciones Exteriores del Perú. " ++
  "Responde siempre en español claro y breve. " ++
  "Usa únicamente la información proporcionada en el CONTEXTO para responder. " ++
  "Si la información no está en el contexto o no es suficiente, indica amablemente " ++
  "que no puedes responder con certeza y sugiere contactar al consulado."

/-- The user prompt of lines 170-174 of `rag.py`. -/
def userPrompt (contextText question : String) : String :=
  "CONTEXTO:\n" ++ contextText ++ "\n\n" ++
  "PREGUNTA DEL CIUDADANO:\n" ++ question ++ "\n\n" ++
  "Responde de forma estructurada y fácil de entender."

/-- Models `answer_question` (lines 146-208 of `rag.py`), with the two
external collaborators explicit: `top_chunks` is the result of
`_retrieve_relevant_chunks(question, k)` and `generate` the chat
capability called at line 177 (system prompt, user prompt ↦ response).
Line 186 is the `answer_text` match: first choice stripped, or `""` when
`choices` is empty — an ordinary value, not an exception. -/
def answer_question (generate : String → String → ChatCompletion)
    (top_chunks : List Chunk) (question : String) : AnswerResult :=
  let contextText := String.intercalate "\n\n---\n\n" (top_chunks.map Chunk.text)
  let completion := generate systemPrompt (userPrompt contextText question)
  let answerText :=
    match completion.choices with
    | [] => ""
    | c :: _ => pyStrip c
  { answer := answerText
    retrieved_chunks := top_chunks.map Chunk.text
    source_files := top_chunks.map (fun _ => "knowledge.txt")
    model_name := CHAT_MODEL
    temperature := 0.2
    usage := completion.usage }

/-! ## Claim C7: zero-norm vectors -/

/-- C7: for every pair of float vectors, if either has zero norm then
`_cosine_similarity` returns exactly `0.0`; the function is total (the
degenerate case is a soft result, not an exception). -/
theorem C7_cosine_zero_norm (a b : List ℝ) (h : vecNorm a = 0 ∨ vecNorm b = 0) :
    cosine_similarity a b = 0 := by
  simp only [cosine_similarity, if_pos h]

theorem C7_cosine_zero_norm_witness :
    (vecNorm [] = 0 ∨ vecNorm [(1 : ℝ)] = 0) ∧ cosine_similarity [] [(1 : ℝ)] = 0 := by
  have h : vecNorm ([] : List ℝ) = 0 := by simp [vecNorm]
  exact ⟨Or.inl h, C7_cosine_zero_norm _ _ (Or.inl h)⟩

/-! ## Claim C4: persistence round-trip -/

theorem floatsOf_map_num (l : List ℝ) : floatsOf (l.map Json.num) = some l := by
  induction l with
  | nil => rfl
  | cons x xs ih => simp [floatsOf, ih]

theorem deserializeChunk_serializeChunk (c : Chunk) :
    deserializeChunk (serializeChunk c) = some c := by
  simp [serializeChunk, deserializeChunk, getField, floatsOf_map_num]

theorem deserializeItems_map_serializeChunk (cs : List Chunk) :
    deserializeItems (cs.map serializeChunk) = some cs := by
  induction cs with
  | nil => rfl
  | cons c rest ih => simp [deserializeItems, deserializeChunk_serializeChunk c, ih]

/-- C4: serializing a chunk list to the persisted JSON form and
deserializing it back is the identity: every chunk's id, text, and
embedding survive the round-trip. -/
theorem C4_persist_roundtrip (index : List Chunk) :
    deserializeIndex (serializeIndex index) = some index := by
  simp [serializeIndex, deserializeIndex, deserializeItems_map_serializeChunk]

/-! ## Claim C8: the answer composer -/

/-- C8: if the chat capability returns no choices, the answer field is the
empty string (no error); when a choice is returned, the answer is its text
with leading and trailing whitespace stripped, unchanged otherwise. -/
theorem C8_answer_composer (generate : String → String → ChatCompletion)
    (top_chunks : List Chunk) (question : String) :
    ((generate systemPrompt (userPrompt
        (String.intercalate "\n\n---\n\n" (top_chunks.map Chunk.text)) question)).choices = [] →
      (answer_question generate top_chunks question).answer = "") ∧
    (∀ c rest,
      (generate systemPrompt (userPrompt
        (String.intercalate "\n\n---\n\n" (top_chunks.map Chunk.text)) question)).choices = c :: rest →
      (answer_question generate top_chunks question).answer = pyStrip c) := by
  constructor
  · intro h
    simp [answer_question, h]
  · intro c rest h
    simp [answer_question, h]

/-- A concrete chat capability used to witness C8. -/
def demoGenerate : String → String → ChatCompletion :=
  fun _ _ => ⟨["  hola  "], none⟩

theorem C8_answer_composer_witness :
    (demoGenerate systemPrompt (userPrompt
      (String.intercalate "\n\n---\n\n" (([] : List Chunk).map Chunk.text)) "q")).choices =
      "  hola  " :: [] ∧
    (answer_question demoGenerate [] "q").answer = pyStrip "  hola  " :=
  ⟨rfl, (C8_answer_composer demoGenerate [] "q").2 "  hola  " [] rfl⟩

/-! ## Claim C5: missing knowledge file -/

/-- C5: when a build is required (no cache and no persisted file, or
rebuild forced) and the knowledge document is absent, `build_or_load_index`
raises `fileNotFound` and the state — in particular the durable index
file — is left exactly as it was. -/
theorem C5_missing_knowledge {ε : Type} (embed : String → Except ε (List ℝ))
    (force : Bool) (s : RagState)
    (h1 : s.indexCache = none ∨ force = true)
    (h2 : s.indexFile = none ∨ force = true)
    (hk : s.knowledgeFile = none) :
    build_or_load_index embed force s = (.error .fileNotFound, s) := by
  obtain ⟨kf, idxf, cache⟩ := s
  simp only at h1 h2 hk
  subst hk
  rcases h1 with rfl | rfl
  · rcases h2 with rfl | rfl
    · simp [build_or_load_index, buildFresh]
    · cases idxf <;> simp [build_or_load_index, buildFresh]
  · rcases h2 with rfl | h2'
    · cases cache <;> simp [build_or_load_index, buildFresh]
    · cases cache <;> cases idxf <;> simp [build_or_load_index, buildFresh]

/-! ## Claim C2: the overlap seeding loop

The while loop of lines 60-62 pops trailing words while the collected
suffix has combined length **less than** `overlap`, so it stops only
after that length reaches or exceeds `overlap` (or the buffer runs out):
the seeded suffix generally has combined length `≥ overlap`, not
`< overlap` as the claim states. -/

theorem overlapTake_shape (ov : ℕ) : ∀ (rws acc : List String),
    ∃ n, overlapTake ov rws acc = (rws.take n).reverse ++ acc
  | [], acc => ⟨0, rfl⟩
  | w :: rws, acc => by
    by_cases h : sumLen acc < ov
    · obtain ⟨n, hn⟩ := overlapTake_shape ov rws (w :: acc)
      exact ⟨n + 1, by simp [overlapTake, h, hn]⟩
    · exact ⟨0, by simp [overlapTake, h]⟩

theorem overlapSeed_suffix (current : List String) (ov : ℕ) :
    overlapSeed current ov <:+ current := by
  obtain ⟨n, hn⟩ := overlapTake_shape ov current.reverse []
  rw [overlapSeed, hn, List.append_nil]
  refine ⟨(current.reverse.drop n).reverse, ?_⟩
  rw [← List.reverse_append, List.take_append_drop, List.reverse_reverse]

theorem overlapTake_stop (ov : ℕ) : ∀ (rws acc : List String),
    overlapTake ov rws acc = rws.reverse ++ acc ∨ ov ≤ sumLen (overlapTake ov rws acc)
  | [], acc => Or.inl (by simp [overlapTake])
  | w :: rws, acc => by
    by_cases h : sumLen acc < ov
    · rcases overlapTake_stop ov rws (w :: acc) with h' | h'
      · left
        rw [overlapTake, if_pos h, h']
        simp
      · right
        rw [overlapTake, if_pos h]
        exact h'
    · right
      rw [overlapTake, if_neg h]
      omega

theorem overlapTake_tail_lt (ov : ℕ) : ∀ (rws acc : List String),
    sumLen acc.tail < ov → sumLen (overlapTake ov rws acc).tail < ov
  | [], _, h => by simpa [overlapTake] using h
  | w :: rws, acc, h => by
    by_cases hg : sumLen acc < ov
    · rw [overlapTake, if_pos hg]
      exact overlapTake_tail_lt ov rws (w :: acc) (by simpa using hg)
    · rw [overlapTake, if_neg hg]
      exact h

/-- C2, counterexample to the claim as stated: closing a buffer `["ab"]`
with `overlap = 1` seeds the next buffer with `["ab"]`, whose combined
length `3` is **not** strictly less than `overlap`. -/
theorem C2_counterexample :
    0 < 2 ∧ 0 < 1 ∧
    splitWords "ab cd" 2 1 = [["ab"], ["ab", "cd"]] ∧
    overlapSeed ["ab"] 1 = ["ab"] ∧ ¬ sumLen (overlapSeed ["ab"] 1) < 1 := by
  decide

/-- C2 (amended): whenever a chunk is closed with `overlap > 0`, the buffer
seeded for the next chunk is a suffix of the just-closed buffer's trailing
words in original order; words are taken from the end backward **while**
the collected suffix's combined length (word length + 1 per word) is still
below `overlap`, so the seed either exhausts the whole buffer or has
combined length `≥ overlap`, and the seed minus its earliest-taken word
always has combined length `< overlap`. -/
theorem C2_overlap_seed (current : List String) (overlap : ℕ) (hov : 0 < overlap) :
    overlapSeed current overlap <:+ current ∧
    (overlapSeed current overlap = current ∨ overlap ≤ sumLen (overlapSeed current overlap)) ∧
    sumLen (overlapSeed current overlap).tail < overlap := by
  refine ⟨overlapSeed_suffix current overlap, ?_, ?_⟩
  · rcases overlapTake_stop overlap current.reverse [] with h | h
    · left
      rw [overlapSeed, h]
      simp
    · right
      rw [overlapSeed]
      exact h
  · exact overlapTake_tail_lt overlap current.reverse [] (by simpa [sumLen] using hov)

theorem C2_overlap_seed_witness :
    0 < 1 ∧
    (overlapSeed ["ab"] 1 <:+ ["ab"] ∧
      (overlapSeed ["ab"] 1 = ["ab"] ∨ 1 ≤ sumLen (overlapSeed ["ab"] 1)) ∧
      sumLen (overlapSeed ["ab"] 1).tail < 1) :=
  ⟨Nat.one_pos, C2_overlap_seed ["ab"] 1 Nat.one_pos⟩

/-! ## Claim C6: overlap zero

With `overlap = 0` the buffer is cleared at each split, so the chunks'
word lists partition the input's word occurrences.  The claim as stated —
no word string appears in two consecutive chunks — nevertheless fails when
the same word occurs twice in the text. -/

theorem splitWordsLoop_flatten (maxChars : ℕ) : ∀ (ws cur : List String) (curLen : ℕ)
    (acc : List (List String)),
    (splitWordsLoop maxChars 0 ws cur curLen acc).flatten = acc.flatten ++ cur ++ ws
  | [], cur, curLen, acc => by
    by_cases h : cur = []
    · subst h
      simp [splitWordsLoop]
    · simp [splitWordsLoop, h]
  | w :: ws, cur, curLen, acc => by
    simp only [splitWordsLoop]
    by_cases h : curLen + (w.length + if cur = [] then 0 else 1) > maxChars ∧ ¬cur = []
    · rw [if_pos h, splitWordsLoop_flatten maxChars ws _ _ _]
      simp
    · rw [if_neg h, splitWordsLoop_flatten maxChars ws _ _ _]
      simp

/-- C6, counterexample to the claim as stated: for the text `"a a"` with
`max_chars = 1` and `overlap = 0` the chunker emits two consecutive chunks
both consisting of the word `"a"`. -/
theorem C6_counterexample :
    0 < 1 ∧ ¬ (splitWords "a a" 1 0).Chain' (fun c₁ c₂ => ∀ w ∈ c₁, w ∉ c₂) := by
  refine ⟨Nat.one_pos, ?_⟩
  have hs : splitWords "a a" 1 0 = [["a"], ["a"]] := by decide
  rw [hs]
  intro hch
  exact ((List.chain'_cons.mp hch).1 "a" (by simp)) (by simp)

/-- C6 (amended): with `overlap = 0` the chunks' word lists concatenate to
the input's word list, so when the input's words are pairwise distinct no
word appears in two consecutive chunks. -/
theorem C6_overlap_zero_distinct (text : String) (maxChars : ℕ) (_hmc : 0 < maxChars)
    (hnd : (pySplit text).Nodup) :
    (splitWords text maxChars 0).Chain' (fun c₁ c₂ => ∀ w ∈ c₁, w ∉ c₂) := by
  have hflat : (splitWords text maxChars 0).flatten = pySplit text := by
    simpa using splitWordsLoop_flatten maxChars (pySplit text) [] 0 []
  have hndf : (splitWords text maxChars 0).flatten.Nodup := by
    rw [hflat]
    exact hnd
  have hpw := (List.nodup_flatten.mp hndf).2
  have hch : (splitWords text maxChars 0).Pairwise (fun c₁ c₂ => ∀ w ∈ c₁, w ∉ c₂) := by
    refine hpw.imp ?_
    intro c₁ c₂ h w hw hc
    exact h hw hc
  exact hch.chain'

theorem C6_overlap_zero_distinct_witness :
    (0 < 2 ∧ (pySplit "ab cd").Nodup) ∧
    (splitWords "ab cd" 2 0).Chain' (fun c₁ c₂ => ∀ w ∈ c₁, w ∉ c₂) :=
  ⟨⟨by decide, by decide⟩, C6_overlap_zero_distinct "ab cd" 2 (by decide) (by decide)⟩

theorem C5_missing_knowledge_witness :
    (RagState.mk none none none).indexCache = none ∧
    (RagState.mk none none none).knowledgeFile = none ∧
    build_or_load_index (fun _ : String => (Except.ok [] : Except Unit (List ℝ))) false
      (RagState.mk none none none) =
      (.error .fileNotFound, RagState.mk none none none) :=
  ⟨rfl, rfl,
    C5_missing_knowledge _ false _ (Or.inl rfl) (Or.inl rfl) rfl⟩

/-! ## Claim C3: a provider failure aborts the whole build -/

theorem embedChunks_error {ε : Type} (embed : String → Except ε (List ℝ)) :
    ∀ (ts : List String) (i : ℕ), (∃ t ∈ ts, ∃ e, embed t = .error e) →
    ∃ e, embedChunks embed ts i = .error e
  | [], _, h => absurd h (by simp)
  | t :: ts, i, h => by
    cases hemb : embed t with
    | error e => exact ⟨e, by simp [embedChunks, hemb]⟩
    | ok v =>
      rcases h with ⟨u, hu, e, he⟩
      rcases List.mem_cons.mp hu with rfl | hu'
      · rw [hemb] at he
        cases he
      · obtain ⟨e', he'⟩ := embedChunks_error embed ts (i + 1) ⟨u, hu', e, he⟩
        exact ⟨e', by simp [embedChunks, hemb, he']⟩

/-- C3: when a build runs (no usable cache or persisted file, or rebuild
forced) and the embedding provider fails on any chunk, the whole build
aborts by propagating a provider error; the state — the persisted index
file and the in-memory cache — is returned exactly as it was, so no
partial index is ever persisted or cached. -/
theorem C3_provider_failure_aborts {ε : Type} (embed : String → Except ε (List ℝ))
    (force : Bool) (s : RagState) (text : String)
    (h1 : s.indexCache = none ∨ force = true)
    (h2 : s.indexFile = none ∨ force = true)
    (hk : s.knowledgeFile = some text)
    (hfail : ∃ t ∈ split_text_into_chunks text 800 100, ∃ e, embed t = .error e) :
    ∃ e, build_or_load_index embed force s = (.error (.provider e), s) := by
  obtain ⟨e, he⟩ := embedChunks_error embed (split_text_into_chunks text 800 100) 0 hfail
  refine ⟨e, ?_⟩
  obtain ⟨kf, idxf, cache⟩ := s
  simp only at h1 h2 hk
  subst hk
  have hbf : buildFresh embed (RagState.mk (some text) idxf cache) =
      (.error (.provider e), RagState.mk (some text) idxf cache) := by
    simp [buildFresh, he]
  rcases h1 with rfl | rfl
  · rcases h2 with rfl | rfl
    · simpa [build_or_load_index] using hbf
    · cases idxf <;> simpa [build_or_load_index] using hbf
  · rcases h2 with rfl | h2'
    · cases cache <;> simpa [build_or_load_index] using hbf
    · cases cache <;> cases idxf <;> simpa [build_or_load_index] using hbf

theorem C3_provider_failure_aborts_witness :
    (∃ t ∈ split_text_into_chunks "hola" 800 100,
      ∃ e : Unit, (fun _ : String => (Except.error () : Except Unit (List ℝ))) t = .error e) ∧
    ∃ e, build_or_load_index (fun _ : String => (Except.error () : Except Unit (List ℝ))) false
      (RagState.mk (some "hola") none none) =
      (.error (.provider e), RagState.mk (some "hola") none none) := by
  have hsw : splitWords "hola" 800 100 = [["hola"]] := by decide
  have hmem : joinWords ["hola"] ∈ split_text_into_chunks "hola" 800 100 := by
    rw [split_text_into_chunks, hsw]
    simp
  have hfail : ∃ t ∈ split_text_into_chunks "hola" 800 100,
      ∃ e : Unit, (fun _ : String => (Except.error () : Except Unit (List ℝ))) t = .error e :=
    ⟨joinWords ["hola"], hmem, (), rfl⟩
  exact ⟨hfail,
    C3_provider_failure_aborts _ false _ "hola" (Or.inl rfl) (Or.inl rfl) rfl hfail⟩

/-! ## Claims C1 and C9: retrieval -/

theorem scoreGE_trans (a b c : Chunk × ℝ) (h1 : scoreGE a b = true)
    (h2 : scoreGE b c = true) : scoreGE a c = true := by
  simp only [scoreGE, decide_eq_true_eq] at h1 h2 ⊢
  exact le_trans h2 h1

theorem scoreGE_total (a b : Chunk × ℝ) : scoreGE a b || scoreGE b a := by
  simp only [scoreGE, Bool.or_eq_true, decide_eq_true_eq]
  exact le_total b.2 a.2

theorem mem_scored {index : List Chunk} {q : List ℝ} {p : Chunk × ℝ}
    (hp : p ∈ index.map (fun c => (c, cosine_similarity q c.embedding))) :
    p.1 ∈ index ∧ p.2 = cosine_similarity q p.1.embedding := by
  rcases List.mem_map.mp hp with ⟨c, hc, rfl⟩
  exact ⟨hc, rfl⟩

/-- C1: for every query embedding and every `k > 0`, retrieval returns at
most `k` chunks, each drawn from the index, in non-increasing order of
cosine similarity to the query; when the index has at most `k` chunks,
every index chunk is returned. -/
theorem C1_retrieve_topk (index : List Chunk) (q : List ℝ) (k : ℕ) (_hk : 0 < k) :
    (retrieve_relevant_chunks index q k).length ≤ k ∧
    (∀ c ∈ retrieve_relevant_chunks index q k, c ∈ index) ∧
    (retrieve_relevant_chunks index q k).Pairwise
      (fun c c' => cosine_similarity q c'.embedding ≤ cosine_similarity q c.embedding) ∧
    (index.length ≤ k → ∀ c ∈ index, c ∈ retrieve_relevant_chunks index q k) := by
  have hunfold : retrieve_relevant_chunks index q k =
      (((index.map (fun c => (c, cosine_similarity q c.embedding))).mergeSort
        scoreGE).take k).map Prod.fst := rfl
  refine ⟨?_, ?_, ?_, ?_⟩
  · rw [hunfold, List.length_map, List.length_take]
    exact Nat.min_le_left _ _
  · intro c hc
    rw [hunfold] at hc
    rcases List.mem_map.mp hc with ⟨p, hp, rfl⟩
    exact (mem_scored (List.mem_mergeSort.mp ((List.take_sublist _ _).subset hp))).1
  · rw [hunfold]
    refine List.pairwise_map.mpr ?_
    refine List.Pairwise.sublist (List.take_sublist _ _) ?_
    have hsorted := List.sorted_mergeSort scoreGE_trans scoreGE_total
      (index.map (fun c => (c, cosine_similarity q c.embedding)))
    refine List.Pairwise.imp_of_mem ?_ hsorted
    intro p p' hp hp' hR
    have e1 := (mem_scored (List.mem_mergeSort.mp hp)).2
    have e2 := (mem_scored (List.mem_mergeSort.mp hp')).2
    simp only [scoreGE, decide_eq_true_eq] at hR
    rw [← e1, ← e2]
    exact hR
  · intro hlen c hc
    rw [hunfold]
    have hlen' : ((index.map (fun c => (c, cosine_similarity q c.embedding))).mergeSort
        scoreGE).length ≤ k := by
      rw [List.length_mergeSort, List.length_map]
      exact hlen
    rw [List.take_of_length_le hlen']
    exact List.mem_map_of_mem Prod.fst
      (List.mem_mergeSort.mpr (List.mem_map_of_mem _ hc))

theorem C1_retrieve_topk_witness :
    0 < 1 ∧
    ((retrieve_relevant_chunks [] [] 1).length ≤ 1 ∧
      (∀ c ∈ retrieve_relevant_chunks [] [] 1, c ∈ ([] : List Chunk)) ∧
      (retrieve_relevant_chunks [] [] 1).Pairwise
        (fun c c' => cosine_similarity [] c'.embedding ≤ cosine_similarity [] c.embedding) ∧
      (([] : List Chunk).length ≤ 1 → ∀ c ∈ ([] : List Chunk),
        c ∈ retrieve_relevant_chunks [] [] 1)) :=
  ⟨Nat.one_pos, C1_retrieve_topk [] [] 1 Nat.one_pos⟩

theorem two_mem_sublist {α : Type} {a b : α} : ∀ {l : List α}, a ∈ l → b ∈ l → a ≠ b →
    List.Sublist [a, b] l ∨ List.Sublist [b, a] l := by
  intro l
  induction l with
  | nil => intro ha; cases ha
  | cons x xs ih =>
    intro ha hb hne
    rcases List.mem_cons.mp ha with rfl | ha'
    · rcases List.mem_cons.mp hb with rfl | hb'
      · exact absurd rfl hne
      · exact Or.inl ((List.singleton_sublist.mpr hb').cons₂ a)
    · rcases List.mem_cons.mp hb with rfl | hb'
      · exact Or.inr ((List.singleton_sublist.mpr ha').cons₂ b)
      · exact (ih ha' hb' hne).imp (List.Sublist.cons x) (List.Sublist.cons x)

theorem sublist_both_orders {α : Type} {a b : α} : ∀ {l : List α}, l.Nodup →
    List.Sublist [a, b] l → List.Sublist [b, a] l → a = b := by
  intro l
  induction l with
  | nil =>
    intro _ hab
    exact absurd hab (by simp)
  | cons x xs ih =>
    intro hnd hab hba
    cases hab with
    | cons _ hab' =>
      cases hba with
      | cons _ hba' => exact ih (List.nodup_cons.mp hnd).2 hab' hba'
      | cons₂ _ hba' =>
        have hbmem : b ∈ xs := hab'.subset (by simp)
        exact absurd hbmem (List.nodup_cons.mp hnd).1
    | cons₂ _ hab' =>
      cases hba with
      | cons _ hba' =>
        have hamem : a ∈ xs := hba'.subset (by simp)
        exact absurd hamem (List.nodup_cons.mp hnd).1
      | cons₂ _ hba' => rfl

/-- The build loop assigns strictly increasing ids (the 0-based position),
so the hypothesis of the tie-order theorem holds for every built index. -/
theorem embedChunks_ids_increasing {ε : Type} (embed : String → Except ε (List ℝ)) :
    ∀ (ts : List String) (i : ℕ) (cs : List Chunk), embedChunks embed ts i = .ok cs →
    cs.Pairwise (fun c c' => c.id < c'.id) ∧ ∀ c ∈ cs, (i : ℤ) ≤ c.id
  | [], i, cs, h => by
    cases h
    exact ⟨List.Pairwise.nil, by simp⟩
  | t :: ts, i, cs, h => by
    rw [embedChunks] at h
    cases hemb : embed t with
    | error e =>
      rw [hemb] at h
      cases h
    | ok v =>
      rw [hemb] at h
      cases hrest : embedChunks embed ts (i + 1) with
      | error e =>
        rw [hrest] at h
        cases h
      | ok rest =>
        rw [hrest] at h
        cases h
        obtain ⟨hpw, hbound⟩ := embedChunks_ids_increasing embed ts (i + 1) rest hrest
        refine ⟨List.Pairwise.cons ?_ hpw, ?_⟩
        · intro c' hc'
          have := hbound c' hc'
          show (i : ℤ) < c'.id
          push_cast at this ⊢
          omega
        · intro c hc
          rcases List.mem_cons.mp hc with rfl | hc'
          · exact le_refl _
          · have := hbound c hc'
            push_cast at this ⊢
            omega

/-- C9: the sort of retrieval is stable, so chunks with equal similarity
scores come back in their index order: when the index's ids are strictly
increasing (as the builder assigns them, 0-based in position order), any
two equal-similarity chunks in the output appear in ascending id order. -/
theorem C9_tie_order (index : List Chunk) (q : List ℝ) (k : ℕ)
    (hids : index.Pairwise (fun c c' => c.id < c'.id)) :
    (retrieve_relevant_chunks index q k).Pairwise
      (fun c c' => cosine_similarity q c.embedding = cosine_similarity q c'.embedding →
        c.id < c'.id) := by
  have hunfold : retrieve_relevant_chunks index q k =
      (((index.map (fun c => (c, cosine_similarity q c.embedding))).mergeSort
        scoreGE).take k).map Prod.fst := rfl
  have hscored_ids : (index.map (fun c => (c, cosine_similarity q c.embedding))).Pairwise
      (fun p p' => p.1.id < p'.1.id) := List.pairwise_map.mpr hids
  have hnd_scored : (index.map (fun c => (c, cosine_similarity q c.embedding))).Nodup :=
    hscored_ids.imp (fun h e => absurd (e ▸ h) (lt_irrefl _))
  have hnd_sorted : ((index.map (fun c => (c, cosine_similarity q c.embedding))).mergeSort
      scoreGE).Nodup :=
    (List.mergeSort_perm _ scoreGE).nodup_iff.mpr hnd_scored
  rw [hunfold]
  refine List.pairwise_map.mpr ?_
  refine List.Pairwise.sublist (List.take_sublist _ _) ?_
  refine List.pairwise_iff_forall_sublist.mpr ?_
  intro p p' hsub htie
  have hne : p ≠ p' := List.pairwise_iff_forall_sublist.mp hnd_sorted hsub
  have hp : p ∈ index.map (fun c => (c, cosine_similarity q c.embedding)) :=
    List.mem_mergeSort.mp (hsub.subset (by simp))
  have hp' : p' ∈ index.map (fun c => (c, cosine_similarity q c.embedding)) :=
    List.mem_mergeSort.mp (hsub.subset (by simp))
  have e1 := (mem_scored hp).2
  have e2 := (mem_scored hp').2
  rcases two_mem_sublist hp hp' hne with horder | horder
  · exact List.pairwise_iff_forall_sublist.mp hscored_ids horder
  · have htieB : scoreGE p' p = true := by
      simp only [scoreGE, decide_eq_true_eq]
      rw [e1, e2, htie]
    have hpair : List.Pairwise (fun x y => scoreGE x y = true) [p', p] :=
      List.pairwise_pair.mpr htieB
    have hstab := List.sublist_mergeSort scoreGE_trans scoreGE_total hpair horder
    exact absurd (sublist_both_orders hnd_sorted hsub hstab) hne

theorem C9_tie_order_witness :
    ([] : List Chunk).Pairwise (fun c c' => c.id < c'.id) ∧
    (retrieve_relevant_chunks [] [] 3).Pairwise
      (fun c c' => cosine_similarity [] c.embedding = cosine_similarity [] c'.embedding →
        c.id < c'.id) :=
  ⟨List.Pairwise.nil, C9_tie_order [] [] 3 List.Pairwise.nil⟩

end Rag
